import Mathlib

/-!
# DeltaMake — verification of the spec against the source

Shallow embedding of the parts of the DeltaMake build tool that the checked
claims are about:

* the task scheduler (`CSchedulerLocal` in `Workers.cpp`): task list,
  `AddCommand` / `AddBarrier` / `Stop` / `GiveWorkerTask`;
* the task variants (`CBarrierTask`, `CCommandTask` in `Workers.cpp`);
* the process runner's kill path (`CProcess::Kill` in `Workers.cpp`);
* the incremental build planner (`CBuild::Build` / `CBuild::PostBuild` in
  `Solutions.h`) and its differential-record updates;
* the command-line parser (`ParseArgs` / `CheckArg` in `main.cpp`).

Machine integers (`time_t`, `int`, `pid_t`) are modelled as `Int`; `size_t`
casts that can wrap are taken modulo `2^64`.  Mutable objects are modelled as
explicit state passed through pure functions.
-/

namespace DeltaMake

/-! ## Task variants (`Workers.cpp`) -/

/-- Model of `CBarrierTask`: rendezvous counter (`m_counter`, an atomic int, 0 at
construction) and target (`m_value`, fixed at construction to the worker
count). -/
structure CBarrierTask where
  counter : Int
  value : Int
deriving DecidableEq, Repr

/-- Model of `CBarrierTask::IsDone`: `return m_counter == m_value;`. -/
def CBarrierTask.IsDone (b : CBarrierTask) : Bool :=
  b.counter == b.value

/-- Model of `CBarrierTask::Skip`: `m_counter = m_value;`. -/
def CBarrierTask.Skip (b : CBarrierTask) : CBarrierTask :=
  { b with counter := b.value }

/-- The polling loop of `CBarrierTask::Execute`:
`while (m_counter < m_value) sleep(...)`.  Between two polls the other worker
threads may change the shared counter (their `Execute` increments it,
`Skip` sets it to the target); `trace` gives the successive deltas applied to
the counter by the environment, one per sleep.  `none` means the trace was
exhausted while the loop was still blocked. -/
def CBarrierTask.wait (b : CBarrierTask) : List Int → Option CBarrierTask
  | [] => if b.counter < b.value then none else some b
  | d :: rest =>
      if b.counter < b.value then
        CBarrierTask.wait { b with counter := b.counter + d } rest
      else some b

/-- Model of `CBarrierTask::Execute`: `++m_counter;` once, then the polling loop,
then `return true;`.  The result pairs the returned boolean with the final
barrier state. -/
def CBarrierTask.Execute (b : CBarrierTask) (trace : List Int) :
    Option (Bool × CBarrierTask) :=
  (CBarrierTask.wait { b with counter := b.counter + 1 } trace).map
    (fun b2 => (true, b2))

/-- Model of `CCommandTask`: title, full shell command, `m_bFailIfNonZero`, and
`m_returnValue` (not valid until `Execute` has run — modelled as `Option`). -/
structure CCommandTask where
  title : String
  command : String
  bFailIfNonZero : Bool
  returnValue : Option Int
deriving DecidableEq, Repr

/-- Model of `CCommandTask::Execute`.  `execResult` is the outcome of
`m_process.Exec(m_command.c_str(), m_returnValue)`: `none` when `Exec`
returns `false` (spawn/pipe/poll failure or abnormal termination), and
`some status` when it returns `true` having stored the exit status. -/
def CCommandTask.Execute (t : CCommandTask) (execResult : Option Int) :
    Bool × CCommandTask :=
  match execResult with
  | none => (false, t)
  | some status =>
      let t2 : CCommandTask := { t with returnValue := some status }
      if t.bFailIfNonZero then (status == 0, t2) else (true, t2)

/-- Model of `ITask` in the scheduler's list: either a `CCommandTask` or a
`CBarrierTask` (with its mutable counter state held in the list slot). -/
inductive Task where
  | command (t : CCommandTask)
  | barrier (b : CBarrierTask)
deriving DecidableEq, Repr

/-! ## Scheduler (`CSchedulerLocal` in `Workers.cpp`) -/

/-- Model of `ESchedulerStatus`. -/
inductive ESchedulerStatus where
  | IDLE
  | RUNNING
  | STOPPING
  | KILLING
deriving DecidableEq, Repr

/-- Model of `EWorkerStatus`. -/
inductive EWorkerStatus where
  | WAIT_TASK
  | WORKING
  | FAIL
  | STOPPED
deriving DecidableEq, Repr

/-- Model of `SWorker` as the scheduler sees it: the current-task pointer (modelled
as an index into `m_tasks`; `none` is the null pointer) and the status.
Thread handle and mutex carry no state relevant to the claims. -/
structure SWorker where
  task : Option Nat
  status : EWorkerStatus
deriving DecidableEq, Repr

/-- Model of `CSchedulerLocal` state: the ordered task list, `m_nextTask`, the size
of `m_workers`, `m_status`, and the two TUI counters. -/
structure CSchedulerLocal where
  tasks : List Task
  nextTask : Nat
  nWorkers : Nat
  status : ESchedulerStatus
  spinnerIndex : Nat
  topOffset : Nat
deriving DecidableEq, Repr

/-- Model of `CSchedulerLocal::CheckRunning`: true (and a warning is logged) iff
`m_status == ESchedulerStatus::RUNNING`. -/
def CSchedulerLocal.CheckRunning (s : CSchedulerLocal) : Bool :=
  s.status == ESchedulerStatus.RUNNING

/-- Model of `CSchedulerLocal::AddCommand`: refuse when `CheckRunning()`, else append
a new `CCommandTask` to `m_tasks`. -/
def CSchedulerLocal.AddCommand (s : CSchedulerLocal) (title command : String)
    (bFailIfNonZero : Bool) : CSchedulerLocal :=
  if s.CheckRunning then s
  else { s with tasks := s.tasks ++ [Task.command ⟨title, command, bFailIfNonZero, none⟩] }

/-- Model of `CSchedulerLocal::AddBarrier`: refuse when `CheckRunning()`, else append
`new CBarrierTask(m_workers.size())`. -/
def CSchedulerLocal.AddBarrier (s : CSchedulerLocal) : CSchedulerLocal :=
  if s.CheckRunning then s
  else { s with tasks := s.tasks ++ [Task.barrier ⟨0, Int.ofNat s.nWorkers⟩] }

/-- Model of `CSchedulerLocal::Stop`: `m_status = STOPPING; m_nextTask = m_tasks.size();`. -/
def CSchedulerLocal.Stop (s : CSchedulerLocal) : CSchedulerLocal :=
  { s with status := ESchedulerStatus.STOPPING, nextTask := s.tasks.length }

/-- Model of `CSchedulerLocal::Kill`: `Stop(); m_status = KILLING;`. -/
def CSchedulerLocal.Kill (s : CSchedulerLocal) : CSchedulerLocal :=
  { s.Stop with status := ESchedulerStatus.KILLING }

/-- Model of `CSchedulerLocal::GiveWorkerTask`.  If `m_nextTask == m_tasks.size()`
the worker's task slot is cleared; otherwise the slot receives the pointer
`m_tasks[m_nextTask]` (here: the index), after which `m_nextTask` advances
unless the current task is a barrier whose `IsDone()` is false.  In both
branches the worker status becomes `WORKING`. -/
def CSchedulerLocal.GiveWorkerTask (s : CSchedulerLocal) (w : SWorker) :
    CSchedulerLocal × SWorker :=
  if s.nextTask = s.tasks.length then
    (s, { w with task := none, status := EWorkerStatus.WORKING })
  else
    let current := s.tasks.getD s.nextTask (Task.barrier ⟨0, 0⟩)
    let w2 : SWorker :=
      { w with
        task := if s.nextTask ≠ s.tasks.length then some s.nextTask else none
        status := EWorkerStatus.WORKING }
    let s2 :=
      match current with
      | Task.barrier b =>
          if b.IsDone then { s with nextTask := s.nextTask + 1 } else s
      | Task.command _ => { s with nextTask := s.nextTask + 1 }
    (s2, w2)

/-! ## Process runner kill path (`CProcess` in `Workers.cpp`) -/

/-- The set of processes a POSIX `kill(pid, sig)` call signals, per the
`kill(2)` contract: a positive pid names one process; `0` names every
process in the caller's process group; `-1` names every process the caller
is permitted to signal; below `-1` names the process group `-pid`. -/
inductive KillTarget where
  | process (pid : Int)
  | ownProcessGroup
  | allProcesses
  | processGroup (pgid : Int)
deriving DecidableEq, Repr

/-- Dispatch of `kill(pid, sig)` on the pid argument, per `kill(2)`. -/
def posixKillTarget (pid : Int) : KillTarget :=
  if 0 < pid then KillTarget.process pid
  else if pid = 0 then KillTarget.ownProcessGroup
  else if pid = -1 then KillTarget.allProcesses
  else KillTarget.processGroup (-pid)

/-- The pid state of a `CProcess`: `m_pid` is `-1` at construction, the
child's pid (positive) after a successful `fork`, and `0` once `Clear` has
reaped the child. -/
structure CProcess where
  pid : Int
deriving DecidableEq, Repr

/-- The `m_pid = -1` member initializer of `CProcess`. -/
def CProcess.init : CProcess := { pid := -1 }

/-- The pid effect of `CProcess::Clear`: when `m_pid > 0` the child is
reaped with `waitpid` and `m_pid` is set to `0`; otherwise `m_pid` keeps
its value. -/
def CProcess.clearPid (p : CProcess) : CProcess :=
  if 0 < p.pid then { p with pid := 0 } else p

/-- Model of `CProcess::Kill`: `return kill(m_pid, SIGKILL) != -1;` — the signal is
sent unconditionally; the function's observable effect is the target set of
that `kill` call. -/
def CProcess.Kill (p : CProcess) : KillTarget :=
  posixKillTarget p.pid

/-! ## Incremental build planner (`CBuild` in `Solutions.h`) -/

/-- Constant `DELTAMAKE_MAX_WORKER_TITLE` (`deltamake.h`). -/
def DELTAMAKE_MAX_WORKER_TITLE : Nat := 32

/-- The differential-record slot `buildDiff[key]` as `CBuild::Build` reads
it through JsonCpp: a member can be absent (reads as null), hold a numeric
value, or hold a non-numeric value. -/
inductive DiffSlot where
  | absent
  | num (n : Int)
  | nonNum
deriving DecidableEq, Repr

/-- Model of `SSourceFile` (`Solutions.h`): path, the mtime observed at load time
via `terminal->GetLastModificationTime` (a `time_t`), and the `bToCompile`
flag (present in the struct, unused by `CBuild::Build`).  `stem` records
`file.path.stem()` as computed by `std::filesystem::path`. -/
structure SSourceFile where
  path : String
  stem : String
  mtime : Int
  bToCompile : Bool
deriving DecidableEq, Repr

/-- One command handed to `pool->AddCommand(cmd, title)` by the planner.
`key` is a ghost field recording which `m_sources` entry the emitting loop
iteration was at (the map key, i.e. the source's relative path); `cmd` and
`title` are the actual arguments. -/
structure PoolCommand where
  key : String
  cmd : String
  title : String
deriving DecidableEq, Repr

/-- Running state of the per-source loop of `CBuild::Build`: `nToExecute`,
`m_bLink`, the build's slice of the differential record (`buildDiff`), the
commands emitted to the pool so far, and `m_objects`. -/
structure BuildLoopState where
  nToExecute : Nat
  bLink : Bool
  buildDiff : String → DiffSlot
  tasks : List PoolCommand
  objects : List String

/-- One iteration of the per-source loop of `CBuild::Build` (lines
1012–1041 of `Solutions.h`).  `cmdBegin` is the command prefix assembled
before the loop; `tmpPath` is `m_solution->m_tmpPath`; `name` is `m_name`.
The object path is recorded unconditionally; the task is emitted — and the
record slot overwritten with the observed mtime — unless the slot holds a
numeric `lastTime` with `lastTime >= file.mtime`. -/
def buildSourceStep (cmdBegin tmpPath name : String)
    (st : BuildLoopState) (entry : String × SSourceFile) : BuildLoopState :=
  let key := entry.1
  let file := entry.2
  let outPath := tmpPath ++ "/" ++ name ++ "_" ++ file.stem
  let st1 := { st with objects := st.objects ++ [outPath] }
  let skip : Bool :=
    match st.buildDiff key with
    | DiffSlot.num lastTime => decide (file.mtime ≤ lastTime)
    | _ => false
  if skip then st1
  else
    { st1 with
      bLink := true
      nToExecute := st1.nToExecute + 1
      buildDiff := fun k => if k = key then DiffSlot.num file.mtime else st1.buildDiff k
      tasks := st1.tasks ++
        [⟨key, cmdBegin ++ "\"" ++ file.path ++ "\" -o \"" ++ outPath ++ "\"",
          file.stem.take (DELTAMAKE_MAX_WORKER_TITLE - 1)⟩] }

/-- Result of `CBuild::Build`: the returned `nToExecute`, the `m_bLink`
member, the updated record slice, the emitted commands, `m_objects`, and
the local `bReLink` flag computed from the sub-builds (note: the source
computes `bReLink` and never reads it afterwards). -/
structure BuildResult where
  nToExecute : Nat
  bLink : Bool
  buildDiff : String → DiffSlot
  tasks : List PoolCommand
  objects : List String
  bReLink : Bool

/-- Model of `CBuild::Build` (`Solutions.h` lines 939–1044).  `subCounts` lists the
values returned by `m_subs[i].build->Build(pool)`; `sources` is
`m_solution->m_sources` in its map key order; `buildDiff0` is
`diff[m_name]` after the normalization that replaces a non-object with an
empty object.  `m_bLink` and `m_objects` start from their constructed
values (`false`, empty). -/
def CBuild.Build (cmdBegin tmpPath name : String)
    (subCounts : List Nat)
    (sources : List (String × SSourceFile))
    (buildDiff0 : String → DiffSlot) : BuildResult :=
  let bReLink := subCounts.any (fun n => n ≠ 0)
  let st := sources.foldl (buildSourceStep cmdBegin tmpPath name)
    { nToExecute := 0, bLink := false, buildDiff := buildDiff0,
      tasks := [], objects := [] }
  { nToExecute := st.nToExecute, bLink := st.bLink, buildDiff := st.buildDiff,
    tasks := st.tasks, objects := st.objects, bReLink := bReLink }

/-- The gate of the link/archive step in `CBuild::PostBuild` (`Solutions.h`
lines 1058–1061): the body returns early, without linking, exactly when
`m_bLink == false`; otherwise execution reaches the `ExecSystem` call that
runs the link or archive command. -/
def CBuild.PostBuildLinkRuns (r : BuildResult) : Bool :=
  if r.bLink == false then false else true

/-- The commands of `r.tasks` emitted at source map key `key`. -/
def tasksFor (key : String) (l : List PoolCommand) : List PoolCommand :=
  l.filter (fun t => t.key == key)

/-! ## Command-line parsing (`main.cpp`) -/

/-- Model of `SConfig` as touched by `ParseArgs`, plus a ghost counter of
`PrintHelp()` calls.  (`root`, `solutionTypes` and the saved signal handler
carry no state relevant to parsing.) -/
structure SConfig where
  builds : List String
  bVerbose : Bool
  bNoBuild : Bool
  bScan : Bool
  bForce : Bool
  bDontSaveDiff : Bool
  nMaxWorkers : Nat
  nCores : Nat
  nHelpPrinted : Nat
deriving DecidableEq, Repr

/-- The member-initialized `SConfig` of `g_config`. -/
def SConfig.init : SConfig :=
  { builds := [], bVerbose := false, bNoBuild := false, bScan := false,
    bForce := false, bDontSaveDiff := false, nMaxWorkers := 0, nCores := 1,
    nHelpPrinted := 0 }

/-- Model of `CheckArg` (`main.cpp`): for a two-character argument whose second
character is not a dash, compare that character with `name[0]`; otherwise
compare the text after the first two characters with `name` (`strcmp(arg +
2, name) == 0`).  Out-of-range reads return the NUL terminator. -/
def CheckArg (arg name : String) : Bool :=
  if arg.data.getD 1 '\x00' ≠ '-' ∧ arg.data.length = 2 then
    arg.data.getD 1 '\x00' == name.data.getD 0 '\x00'
  else
    arg.data.drop 2 == name.data

/-- Value of the longest leading digit run, as `atoll` accumulates it. -/
def digitsVal : List Char → Nat → Nat
  | c :: rest, acc =>
      if c.isDigit then digitsVal rest (acc * 10 + (c.toNat - '0'.toNat))
      else acc
  | [], acc => acc

/-- libc `atoll`: skip leading whitespace, take an optional sign, then the
longest leading digit run; no digits yields `0`. -/
def atoll (s : String) : Int :=
  match s.data.dropWhile Char.isWhitespace with
  | '-' :: rest => -(Int.ofNat (digitsVal rest 0))
  | '+' :: rest => Int.ofNat (digitsVal rest 0)
  | l => Int.ofNat (digitsVal l 0)

/-- Semantics of `static_cast<size_t>` of a 64-bit signed value: reduce modulo `2^64`. -/
def castToSize (v : Int) : Nat :=
  (v % (2 : Int) ^ 64).toNat

/-- Outcome of `ParseArgs`: either the function returns and `main`
proceeds, or `exit(EXIT_SUCCESS)` is called during parsing. -/
inductive ParseOutcome where
  | proceed (cfg : SConfig)
  | exitSuccess (cfg : SConfig)
deriving DecidableEq, Repr

/-- The argument loop of `ParseArgs` (`main.cpp` lines 237–267) over the
arguments after `argv[0]`.  `-h`/`--help` prints the help text and keeps
parsing; an unrecognized dash argument prints the help text and exits with
the success status; `--workers` consumes its value (exiting via the help
path when the stream ends); anything not starting with a dash is appended
to `builds`. -/
def ParseArgs (cfg : SConfig) : List String → ParseOutcome
  | [] => ParseOutcome.proceed cfg
  | arg :: rest =>
      if arg.data.getD 0 '\x00' == '-' then
        if CheckArg arg "verbose" then
          ParseArgs { cfg with bVerbose := true } rest
        else if CheckArg arg "no-build" then
          ParseArgs { cfg with bNoBuild := true } rest
        else if CheckArg arg "force" then
          ParseArgs { cfg with bForce := true } rest
        else if CheckArg arg "dont-save-diff" then
          ParseArgs { cfg with bDontSaveDiff := true } rest
        else if CheckArg arg "workers" then
          match rest with
          | [] =>
              ParseOutcome.exitSuccess
                { cfg with nHelpPrinted := cfg.nHelpPrinted + 1 }
          | v :: rest2 =>
              let n := castToSize (atoll v)
              ParseArgs { cfg with nMaxWorkers := if n = 0 then 1 else n } rest2
        else if CheckArg arg "help" then
          ParseArgs { cfg with nHelpPrinted := cfg.nHelpPrinted + 1 } rest
        else
          ParseOutcome.exitSuccess
            { cfg with nHelpPrinted := cfg.nHelpPrinted + 1 }
      else
        ParseArgs { cfg with builds := cfg.builds ++ [arg] } rest

/-- Whether `main` goes on to load the solution and run the build after
`ParseArgs(CArgStream(argc, argv))`: exactly when parsing did not exit. -/
def mainProceedsAfterArgs (args : List String) : Bool :=
  match ParseArgs SConfig.init args with
  | ParseOutcome.proceed _ => true
  | ParseOutcome.exitSuccess _ => false

/-! ## Theorems -/

/-- Helper: `CBarrierTask.wait` returns `some` only with the counter at or
above the target, and it never changes the target. -/
theorem CBarrierTask.wait_spec :
    ∀ (trace : List Int) (b b2 : CBarrierTask),
      CBarrierTask.wait b trace = some b2 →
      b2.value ≤ b2.counter ∧ b2.value = b.value := by
  intro trace
  induction trace with
  | nil =>
      intro b b2 h
      unfold CBarrierTask.wait at h
      by_cases hc : b.counter < b.value
      · simp [hc] at h
      · simp [hc] at h
        subst h
        exact ⟨by omega, rfl⟩
  | cons d rest ih =>
      intro b b2 h
      unfold CBarrierTask.wait at h
      by_cases hc : b.counter < b.value
      · simp [hc] at h
        exact ⟨(ih _ _ h).1, (ih _ _ h).2⟩
      · simp [hc] at h
        subst h
        exact ⟨by omega, rfl⟩

/-- Claim C5: `CBarrierTask::Execute` increments the rendezvous counter
exactly once (with no interference it returns exactly the one-step
increment, and only when that reaches the target); whenever it returns, it
returns success and the counter has reached the target fixed at
construction; `Skip` sets the counter to the target; `IsDone` reports
whether the counter equals the target. -/
theorem barrier_task_semantics :
    (∀ b : CBarrierTask,
        b.Execute [] =
          if b.counter + 1 < b.value then none
          else some (true, { b with counter := b.counter + 1 })) ∧
    (∀ (b : CBarrierTask) (trace : List Int) (r : Bool) (b2 : CBarrierTask),
        b.Execute trace = some (r, b2) →
        r = true ∧ b2.value ≤ b2.counter ∧ b2.value = b.value) ∧
    (∀ b : CBarrierTask, b.Skip.counter = b.value ∧ b.Skip.IsDone = true) ∧
    (∀ b : CBarrierTask, b.IsDone = true ↔ b.counter = b.value) := by
  refine ⟨?_, ?_, ?_, ?_⟩
  · intro b
    unfold CBarrierTask.Execute CBarrierTask.wait
    by_cases hc : b.counter + 1 < b.value <;> simp [hc]
  · intro b trace r b2 h
    unfold CBarrierTask.Execute at h
    rw [Option.map_eq_some'] at h
    obtain ⟨b3, h3, heq⟩ := h
    have hw := CBarrierTask.wait_spec trace _ _ h3
    cases heq
    exact ⟨rfl, hw.1, hw.2⟩
  · intro b
    simp [CBarrierTask.Skip, CBarrierTask.IsDone]
  · intro b
    simp [CBarrierTask.IsDone]

/-- Witness for C5 at a concrete barrier: two workers, counter `0`,
one external increment during the wait. -/
theorem barrier_task_semantics_witness :
    CBarrierTask.Execute ⟨0, 2⟩ [1] = some (true, ⟨2, 2⟩) ∧
    (true = true ∧ (2 : Int) ≤ (2 : Int) ∧
      (⟨2, 2⟩ : CBarrierTask).value = (⟨0, 2⟩ : CBarrierTask).value) :=
  ⟨by decide, barrier_task_semantics.2.1 ⟨0, 2⟩ [1] true ⟨2, 2⟩ (by decide)⟩

/-- Claim C6: `CCommandTask::Execute` returns true iff the process run
itself succeeded and either `m_bFailIfNonZero` is false or the exit status
is zero; with `m_bFailIfNonZero` false a non-zero status is retained in the
task but not treated as failure. -/
theorem command_execute_success_iff :
    ∀ (t : CCommandTask) (execResult : Option Int),
      ((t.Execute execResult).1 = true ↔
        ∃ status, execResult = some status ∧
          (t.bFailIfNonZero = false ∨ status = 0)) ∧
      (∀ status, execResult = some status → t.bFailIfNonZero = false →
        (t.Execute execResult).1 = true ∧
        (t.Execute execResult).2.returnValue = some status) := by
  intro t execResult
  cases execResult with
  | none => simp [CCommandTask.Execute]
  | some status =>
      cases hb : t.bFailIfNonZero <;>
        simp [CCommandTask.Execute, hb]

/-- Witness for C6: `failIfNonZero = false` and exit status `7` — success,
with the status retained. -/
theorem command_execute_success_iff_witness :
    ((⟨"t", "c", false, none⟩ : CCommandTask).Execute (some 7)).1 = true ∧
    ((⟨"t", "c", false, none⟩ : CCommandTask).Execute (some 7)).2.returnValue
      = some 7 :=
  (command_execute_success_iff ⟨"t", "c", false, none⟩ (some 7)).2 7 rfl rfl

/-- Claim C4: when `GiveWorkerTask` assigns a task to an idle worker and a
next task exists, a barrier whose `IsDone()` is false leaves `m_nextTask`
unchanged (the worker is handed that same list slot, so every subsequently
idle worker receives the same barrier instance); a command, or a barrier
whose `IsDone()` is true, advances `m_nextTask` by exactly one; hence the
scheduler never advances past a barrier whose counter has not reached the
target. -/
theorem give_worker_task_barrier_gating :
    ∀ (s : CSchedulerLocal) (w : SWorker), s.nextTask < s.tasks.length →
      (∀ b : CBarrierTask,
          s.tasks.getD s.nextTask (Task.barrier ⟨0, 0⟩) = Task.barrier b →
          b.IsDone = false →
          (s.GiveWorkerTask w).1.nextTask = s.nextTask ∧
          (s.GiveWorkerTask w).2.task = some s.nextTask) ∧
      (∀ b : CBarrierTask,
          s.tasks.getD s.nextTask (Task.barrier ⟨0, 0⟩) = Task.barrier b →
          b.IsDone = true →
          (s.GiveWorkerTask w).1.nextTask = s.nextTask + 1 ∧
          (s.GiveWorkerTask w).2.task = some s.nextTask) ∧
      (∀ t : CCommandTask,
          s.tasks.getD s.nextTask (Task.barrier ⟨0, 0⟩) = Task.command t →
          (s.GiveWorkerTask w).1.nextTask = s.nextTask + 1 ∧
          (s.GiveWorkerTask w).2.task = some s.nextTask) ∧
      ((s.GiveWorkerTask w).1.nextTask = s.nextTask + 1 →
        ∀ b : CBarrierTask,
          s.tasks.getD s.nextTask (Task.barrier ⟨0, 0⟩) = Task.barrier b →
          b.IsDone = true) := by
  intro s w h
  have hne : s.nextTask ≠ s.tasks.length := Nat.ne_of_lt h
  refine ⟨?_, ?_, ?_, ?_⟩
  · intro b hb hdone
    simp only [CSchedulerLocal.GiveWorkerTask, if_neg hne, hb, hdone]
    simp [hne]
  · intro b hb hdone
    simp only [CSchedulerLocal.GiveWorkerTask, if_neg hne, hb, hdone]
    simp [hne]
  · intro t ht
    simp only [CSchedulerLocal.GiveWorkerTask, if_neg hne, ht]
    simp [hne]
  · intro hadv b hb
    by_contra hdone
    rw [Bool.not_eq_true] at hdone
    simp only [CSchedulerLocal.GiveWorkerTask, if_neg hne, hb, hdone] at hadv
    simp at hadv

/-- Witness for C4: one not-yet-done barrier at the head of the list;
`nextTask` stays `0` and the worker is handed slot `0`. -/
theorem give_worker_task_barrier_gating_witness :
    (0 : Nat) < 1 ∧
    ((CSchedulerLocal.GiveWorkerTask
        ⟨[Task.barrier ⟨0, 2⟩], 0, 2, ESchedulerStatus.RUNNING, 0, 0⟩
        ⟨none, EWorkerStatus.WAIT_TASK⟩).1.nextTask = 0 ∧
      (CSchedulerLocal.GiveWorkerTask
        ⟨[Task.barrier ⟨0, 2⟩], 0, 2, ESchedulerStatus.RUNNING, 0, 0⟩
        ⟨none, EWorkerStatus.WAIT_TASK⟩).2.task = some 0) :=
  ⟨by decide,
    (give_worker_task_barrier_gating
        ⟨[Task.barrier ⟨0, 2⟩], 0, 2, ESchedulerStatus.RUNNING, 0, 0⟩
        ⟨none, EWorkerStatus.WAIT_TASK⟩ (by decide)).1
      ⟨0, 2⟩ rfl (by decide)⟩

/-- Counterexample to claim C7 as stated: with the scheduler in `STOPPING`
(a non-`Idle` status) `AddCommand` does append a task. -/
theorem add_command_not_idle_appends_counterexample :
    ({ tasks := [], nextTask := 0, nWorkers := 2,
       status := ESchedulerStatus.STOPPING, spinnerIndex := 0,
       topOffset := 0 } : CSchedulerLocal).status ≠ ESchedulerStatus.IDLE ∧
    (({ tasks := [], nextTask := 0, nWorkers := 2,
        status := ESchedulerStatus.STOPPING, spinnerIndex := 0,
        topOffset := 0 } : CSchedulerLocal).AddCommand "t" "c" true).tasks
      ≠ ([] : List Task) := by
  decide

/-- Claim C7 amended: `AddCommand` and `AddBarrier` refuse (via
`CheckRunning`, which also logs the warning) exactly when the status is
`Running`; in every other status — including `Idle` — each call appends
exactly one task. -/
theorem add_refuses_iff_running :
    ∀ (s : CSchedulerLocal) (title command : String) (b : Bool),
      (s.status = ESchedulerStatus.RUNNING →
        s.AddCommand title command b = s ∧ s.AddBarrier = s) ∧
      (s.status ≠ ESchedulerStatus.RUNNING →
        (s.AddCommand title command b).tasks
            = s.tasks ++ [Task.command ⟨title, command, b, none⟩] ∧
        (s.AddBarrier).tasks
            = s.tasks ++ [Task.barrier ⟨0, Int.ofNat s.nWorkers⟩]) := by
  intro s title command b
  constructor
  · intro h
    simp [CSchedulerLocal.AddCommand, CSchedulerLocal.AddBarrier,
      CSchedulerLocal.CheckRunning, h]
  · intro h
    simp [CSchedulerLocal.AddCommand, CSchedulerLocal.AddBarrier,
      CSchedulerLocal.CheckRunning, h]

/-- Witness for the amended C7: in `Idle` each appender adds its task. -/
theorem add_refuses_iff_running_witness :
    (({ tasks := [], nextTask := 0, nWorkers := 2,
        status := ESchedulerStatus.IDLE, spinnerIndex := 0,
        topOffset := 0 } : CSchedulerLocal).AddCommand "t" "c" true).tasks
        = [] ++ [Task.command ⟨"t", "c", true, none⟩] ∧
    (({ tasks := [], nextTask := 0, nWorkers := 2,
        status := ESchedulerStatus.IDLE, spinnerIndex := 0,
        topOffset := 0 } : CSchedulerLocal).AddBarrier).tasks
        = [] ++ [Task.barrier ⟨0, Int.ofNat 2⟩] :=
  (add_refuses_iff_running
      { tasks := [], nextTask := 0, nWorkers := 2,
        status := ESchedulerStatus.IDLE, spinnerIndex := 0, topOffset := 0 }
      "t" "c" true).2 (by decide)

/-- Claim C8: `Stop` sets the status to `Stopping` and `m_nextTask` to the
task-list length, changes nothing else, and is idempotent. -/
theorem stop_semantics_and_idempotent :
    ∀ s : CSchedulerLocal,
      s.Stop.status = ESchedulerStatus.STOPPING ∧
      s.Stop.nextTask = s.tasks.length ∧
      s.Stop.tasks = s.tasks ∧
      s.Stop.nWorkers = s.nWorkers ∧
      s.Stop.spinnerIndex = s.spinnerIndex ∧
      s.Stop.topOffset = s.topOffset ∧
      s.Stop.Stop = s.Stop := by
  intro s
  simp [CSchedulerLocal.Stop]

/-- Claim C9 evaluation: `CProcess::Kill` issues `kill(m_pid, SIGKILL)`
unconditionally, so before any successful spawn (`m_pid = -1`) the signal
goes to every process the user may signal, and after the child has been
reaped by `Clear` (`m_pid = 0`) it goes to the caller's whole process
group — in neither case is the signal withheld. -/
theorem kill_without_child_signals_broadly :
    CProcess.init.Kill = KillTarget.allProcesses ∧
    (CProcess.clearPid { pid := 1234 }).Kill = KillTarget.ownProcessGroup := by
  decide

/-- Claim C10: `-h`/`--help` prints the help text and parsing (and hence
normal execution) continues; any unrecognized dash argument prints the help
text and exits with the success status; an invocation containing only `-h`
proceeds to load the solution and run the build. -/
theorem help_flag_continues_unknown_flag_exits :
    (∀ (cfg : SConfig) (rest : List String),
        ParseArgs cfg ("-h" :: rest)
          = ParseArgs { cfg with nHelpPrinted := cfg.nHelpPrinted + 1 } rest ∧
        ParseArgs cfg ("--help" :: rest)
          = ParseArgs { cfg with nHelpPrinted := cfg.nHelpPrinted + 1 } rest) ∧
    (∀ (cfg : SConfig) (rest : List String) (arg : String),
        arg.data.getD 0 '\x00' = '-' →
        CheckArg arg "verbose" = false →
        CheckArg arg "no-build" = false →
        CheckArg arg "force" = false →
        CheckArg arg "dont-save-diff" = false →
        CheckArg arg "workers" = false →
        CheckArg arg "help" = false →
        ParseArgs cfg (arg :: rest)
          = ParseOutcome.exitSuccess
              { cfg with nHelpPrinted := cfg.nHelpPrinted + 1 }) ∧
    mainProceedsAfterArgs ["-h"] = true := by
  refine ⟨?_, ?_, ?_⟩
  · intro cfg rest
    constructor
    · have h0 : ("-h".data.getD 0 '\x00' == '-') = true := by decide
      have h1 : CheckArg "-h" "verbose" = false := by decide
      have h2 : CheckArg "-h" "no-build" = false := by decide
      have h3 : CheckArg "-h" "force" = false := by decide
      have h4 : CheckArg "-h" "dont-save-diff" = false := by decide
      have h5 : CheckArg "-h" "workers" = false := by decide
      have h6 : CheckArg "-h" "help" = true := by decide
      rw [ParseArgs.eq_def]
      simp only [h0, h1, h2, h3, h4, h5, h6]
      simp
    · have h0 : ("--help".data.getD 0 '\x00' == '-') = true := by decide
      have h1 : CheckArg "--help" "verbose" = false := by decide
      have h2 : CheckArg "--help" "no-build" = false := by decide
      have h3 : CheckArg "--help" "force" = false := by decide
      have h4 : CheckArg "--help" "dont-save-diff" = false := by decide
      have h5 : CheckArg "--help" "workers" = false := by decide
      have h6 : CheckArg "--help" "help" = true := by decide
      rw [ParseArgs.eq_def]
      simp only [h0, h1, h2, h3, h4, h5, h6]
      simp
  · intro cfg rest arg hdash h1 h2 h3 h4 h5 h6
    have h0 : (arg.data.getD 0 '\x00' == '-') = true := by
      rw [hdash]; decide
    rw [ParseArgs.eq_def]
    simp only [h0, h1, h2, h3, h4, h5, h6]
    simp
  · decide

/-- Witness for C10: `-x` is unrecognized — help is printed and parsing
exits with the success status. -/
theorem help_flag_continues_unknown_flag_exits_witness :
    ParseArgs SConfig.init ["-x"]
      = ParseOutcome.exitSuccess
          { SConfig.init with nHelpPrinted := SConfig.init.nHelpPrinted + 1 } :=
  help_flag_continues_unknown_flag_exits.2.1 SConfig.init [] "-x"
    (by decide) (by decide) (by decide) (by decide) (by decide) (by decide)
    (by decide)

/-- Helper: a loop iteration at an entry with a different map key neither
changes the record slot of `key` nor the commands emitted at `key`. -/
theorem buildSourceStep_ne_key (cb tp nm : String) (st : BuildLoopState)
    (e : String × SSourceFile) (key : String) (hk : e.1 ≠ key) :
    (buildSourceStep cb tp nm st e).buildDiff key = st.buildDiff key ∧
    tasksFor key (buildSourceStep cb tp nm st e).tasks
      = tasksFor key st.tasks := by
  have hb : (e.1 == key) = false := beq_eq_false_iff_ne.mpr hk
  simp only [buildSourceStep]
  split
  · exact ⟨rfl, rfl⟩
  · refine ⟨?_, ?_⟩
    · simp only []
      rw [if_neg (fun h => hk h.symm)]
    · simp only [tasksFor, List.filter_append, List.filter_cons,
        List.filter_nil, hb]
      simp

/-- Helper: folding the loop over entries whose keys all differ from `key`
preserves the record slot of `key` and the commands emitted at `key`. -/
theorem buildLoop_preserve (cb tp nm : String) (key : String) :
    ∀ (l : List (String × SSourceFile)) (st : BuildLoopState),
      (∀ e ∈ l, e.1 ≠ key) →
      (l.foldl (buildSourceStep cb tp nm) st).buildDiff key
          = st.buildDiff key ∧
      tasksFor key (l.foldl (buildSourceStep cb tp nm) st).tasks
          = tasksFor key st.tasks := by
  intro l
  induction l with
  | nil => intro st _; exact ⟨rfl, rfl⟩
  | cons e rest ih =>
      intro st hmem
      rw [List.foldl_cons]
      have h1 := buildSourceStep_ne_key cb tp nm st e key
        (hmem e (List.mem_cons_self e rest))
      have h2 := ih (buildSourceStep cb tp nm st e)
        (fun x hx => hmem x (List.mem_cons_of_mem e hx))
      exact ⟨h2.1.trans h1.1, h2.2.trans h1.2⟩

/-- Helper: the loop iteration at the entry `(key, file)` itself: with a
numeric slot at or above the observed mtime it leaves slot and emissions
alone; otherwise it emits exactly one command at `key` and overwrites the
slot with the observed mtime. -/
theorem buildSourceStep_at_key (cb tp nm : String) (st : BuildLoopState)
    (key : String) (file : SSourceFile) :
    ((∃ R, st.buildDiff key = DiffSlot.num R ∧ file.mtime ≤ R) →
        (buildSourceStep cb tp nm st (key, file)).buildDiff key
            = st.buildDiff key ∧
        (buildSourceStep cb tp nm st (key, file)).tasks = st.tasks) ∧
    ((∀ R, st.buildDiff key = DiffSlot.num R → R < file.mtime) →
        (buildSourceStep cb tp nm st (key, file)).buildDiff key
            = DiffSlot.num file.mtime ∧
        tasksFor key (buildSourceStep cb tp nm st (key, file)).tasks
            = tasksFor key st.tasks ++
              [⟨key,
                cb ++ "\"" ++ file.path ++ "\" -o \"" ++
                  (tp ++ "/" ++ nm ++ "_" ++ file.stem) ++ "\"",
                file.stem.take (DELTAMAKE_MAX_WORKER_TITLE - 1)⟩]) := by
  constructor
  · rintro ⟨R, hR, hle⟩
    have hskip :
        (match st.buildDiff key with
          | DiffSlot.num lastTime => decide (file.mtime ≤ lastTime)
          | _ => false) = true := by
      rw [hR]
      simpa using hle
    simp only [buildSourceStep, hskip]
    exact ⟨rfl, rfl⟩
  · intro hlt
    have hskip :
        (match st.buildDiff key with
          | DiffSlot.num lastTime => decide (file.mtime ≤ lastTime)
          | _ => false) = false := by
      cases hs : st.buildDiff key with
      | num R => simpa using (hlt R hs).not_le
      | absent => rfl
      | nonNum => rfl
    simp only [buildSourceStep, hskip]
    refine ⟨?_, ?_⟩
    · simp
    · simp [tasksFor, List.filter_append]

/-- Helper: behaviour of `CBuild::Build` at one source-map entry, assuming
the map keys are distinct (they are: `m_sources` is a `std::map`). -/
theorem build_key_spec (cb tp nm : String) (subCounts : List Nat)
    (sources : List (String × SSourceFile)) (d0 : String → DiffSlot)
    (key : String) (file : SSourceFile)
    (hnd : (sources.map Prod.fst).Nodup) (hmem : (key, file) ∈ sources) :
    ((∃ R, d0 key = DiffSlot.num R ∧ file.mtime ≤ R) →
        tasksFor key (CBuild.Build cb tp nm subCounts sources d0).tasks = [] ∧
        (CBuild.Build cb tp nm subCounts sources d0).buildDiff key = d0 key) ∧
    ((∀ R, d0 key = DiffSlot.num R → R < file.mtime) →
        (tasksFor key
            (CBuild.Build cb tp nm subCounts sources d0).tasks).length = 1 ∧
        (CBuild.Build cb tp nm subCounts sources d0).buildDiff key
          = DiffSlot.num file.mtime) := by
  obtain ⟨l1, l2, rfl⟩ := List.append_of_mem hmem
  rw [List.map_append, List.map_cons] at hnd
  rw [List.nodup_append] at hnd
  obtain ⟨hnd1, hnd2, hdisj⟩ := hnd
  have h1 : ∀ e ∈ l1, e.1 ≠ key := by
    intro e he heq
    have hm : e.1 ∈ l1.map Prod.fst := List.mem_map_of_mem Prod.fst he
    rw [heq] at hm
    exact hdisj hm (List.mem_cons_self _ _)
  have h2 : ∀ e ∈ l2, e.1 ≠ key := by
    intro e he heq
    have hm : e.1 ∈ l2.map Prod.fst := List.mem_map_of_mem Prod.fst he
    rw [heq] at hm
    exact (List.nodup_cons.mp hnd2).1 hm
  simp only [CBuild.Build, List.foldl_append, List.foldl_cons]
  set st0 : BuildLoopState :=
    { nToExecute := 0, bLink := false, buildDiff := d0, tasks := [],
      objects := [] } with hst0
  have p1 := buildLoop_preserve cb tp nm key l1 st0 h1
  set st1 := l1.foldl (buildSourceStep cb tp nm) st0 with hst1
  have hd1 : st1.buildDiff key = d0 key := p1.1
  have ht1 : tasksFor key st1.tasks = [] := by
    rw [p1.2]; rfl
  have pk := buildSourceStep_at_key cb tp nm st1 key file
  constructor
  · rintro ⟨R, hR, hle⟩
    have hk := pk.1 ⟨R, hd1.trans hR, hle⟩
    have p2 := buildLoop_preserve cb tp nm key l2
      (buildSourceStep cb tp nm st1 (key, file)) h2
    refine ⟨?_, ?_⟩
    · rw [p2.2]
      rw [hk.2, ht1]
    · rw [p2.1, hk.1, hd1]
  · intro hlt
    have hk := pk.2 (fun R hR => hlt R (hd1 ▸ hR))
    have p2 := buildLoop_preserve cb tp nm key l2
      (buildSourceStep cb tp nm st1 (key, file)) h2
    refine ⟨?_, ?_⟩
    · rw [p2.2, hk.2, ht1]
      rfl
    · rw [p2.1, hk.1]

/-- Claim C1: for a source `S` in the solution's source map and a build
`B`, a numeric record slot `R ≥` the load-time mtime of `S` makes
`CBuild::Build` emit no compile task for `S`; otherwise (smaller numeric
value, absent or non-numeric slot) it emits exactly one compile task for
`S` and overwrites the slot with the observed mtime. -/
theorem incremental_skip_and_emit (cb tp nm : String) (subCounts : List Nat)
    (sources : List (String × SSourceFile)) (d0 : String → DiffSlot)
    (key : String) (file : SSourceFile)
    (hnd : (sources.map Prod.fst).Nodup) (hmem : (key, file) ∈ sources) :
    ((∃ R, d0 key = DiffSlot.num R ∧ file.mtime ≤ R) →
        tasksFor key (CBuild.Build cb tp nm subCounts sources d0).tasks
          = []) ∧
    ((∀ R, d0 key = DiffSlot.num R → R < file.mtime) →
        (tasksFor key
            (CBuild.Build cb tp nm subCounts sources d0).tasks).length = 1 ∧
        (CBuild.Build cb tp nm subCounts sources d0).buildDiff key
          = DiffSlot.num file.mtime) :=
  ⟨fun h => ((build_key_spec cb tp nm subCounts sources d0 key file
      hnd hmem).1 h).1,
    (build_key_spec cb tp nm subCounts sources d0 key file hnd hmem).2⟩

/-- Witness for C1 at a one-source solution: slot `1000 ≥` mtime `1000`
emits nothing; slot `900 <` mtime `1000` emits once and stores `1000`. -/
theorem incremental_skip_and_emit_witness :
    (tasksFor "a.c"
        (CBuild.Build "g++ -c " "tmp" "default" []
          [("a.c", ⟨"src/a.c", "a", 1000, false⟩)]
          (fun _ => DiffSlot.num 1000)).tasks = []) ∧
    ((tasksFor "a.c"
        (CBuild.Build "g++ -c " "tmp" "default" []
          [("a.c", ⟨"src/a.c", "a", 1000, false⟩)]
          (fun _ => DiffSlot.num 900)).tasks).length = 1 ∧
      (CBuild.Build "g++ -c " "tmp" "default" []
          [("a.c", ⟨"src/a.c", "a", 1000, false⟩)]
          (fun _ => DiffSlot.num 900)).buildDiff "a.c"
        = DiffSlot.num 1000) :=
  ⟨(incremental_skip_and_emit "g++ -c " "tmp" "default" []
      [("a.c", ⟨"src/a.c", "a", 1000, false⟩)] (fun _ => DiffSlot.num 1000)
      "a.c" ⟨"src/a.c", "a", 1000, false⟩ (by decide) (by decide)).1
      ⟨1000, rfl, le_refl 1000⟩,
    (incremental_skip_and_emit "g++ -c " "tmp" "default" []
      [("a.c", ⟨"src/a.c", "a", 1000, false⟩)] (fun _ => DiffSlot.num 900)
      "a.c" ⟨"src/a.c", "a", 1000, false⟩ (by decide) (by decide)).2
      (fun R hR => by
        injection hR with h
        rw [← h]
        decide)⟩

/-- Claim C3: whenever `CBuild::Build` emits a compile task for source `S`,
the differential-record slot for `S` at return holds a timestamp at least
the mtime observed for `S` at planning time.  `CBuild.Build` takes no input
describing task execution, so this holds regardless of whether the emitted
task is ever executed or succeeds. -/
theorem emitted_task_record_at_least_mtime (cb tp nm : String)
    (subCounts : List Nat) (sources : List (String × SSourceFile))
    (d0 : String → DiffSlot) (key : String) (file : SSourceFile)
    (hnd : (sources.map Prod.fst).Nodup) (hmem : (key, file) ∈ sources) :
    ∀ c ∈ (CBuild.Build cb tp nm subCounts sources d0).tasks, c.key = key →
      ∃ t, (CBuild.Build cb tp nm subCounts sources d0).buildDiff key
            = DiffSlot.num t ∧ file.mtime ≤ t := by
  intro c hc hck
  by_cases hup : ∃ R, d0 key = DiffSlot.num R ∧ file.mtime ≤ R
  · exfalso
    have hempty := ((build_key_spec cb tp nm subCounts sources d0 key file
      hnd hmem).1 hup).1
    have : c ∈ tasksFor key
        (CBuild.Build cb tp nm subCounts sources d0).tasks := by
      refine List.mem_filter.mpr ⟨hc, ?_⟩
      simp [hck]
    rw [hempty] at this
    exact List.not_mem_nil c this
  · push_neg at hup
    have := ((build_key_spec cb tp nm subCounts sources d0 key file
      hnd hmem).2 (fun R hR => hup R hR)).2
    exact ⟨file.mtime, this, le_refl _⟩

set_option maxRecDepth 8192 in
/-- Witness for C3: the single task emitted for `a.c` (slot `900 <` mtime
`1000`); at return the slot holds `1000 ≥ 1000`. -/
theorem emitted_task_record_at_least_mtime_witness :
    ∃ t, (CBuild.Build "g++ -c " "tmp" "default" []
          [("a.c", ⟨"src/a.c", "a", 1000, false⟩)]
          (fun _ => DiffSlot.num 900)).buildDiff "a.c"
        = DiffSlot.num t ∧ (1000 : Int) ≤ t :=
  emitted_task_record_at_least_mtime "g++ -c " "tmp" "default" []
    [("a.c", ⟨"src/a.c", "a", 1000, false⟩)] (fun _ => DiffSlot.num 900)
    "a.c" ⟨"src/a.c", "a", 1000, false⟩ (by decide) (by decide)
    ((CBuild.Build "g++ -c " "tmp" "default" []
        [("a.c", ⟨"src/a.c", "a", 1000, false⟩)]
        (fun _ => DiffSlot.num 900)).tasks.getD 0 ⟨"", "", ""⟩)
    (by decide) (by decide)

/-- Claim C2 evaluation: with every local source up to date but a
sub-solution reporting one emission, `CBuild::Build` computes
`bReLink = true` from the sub-builds yet never uses it — `m_bLink` stays
false and the link/archive step of `PostBuild` does not run, although the
claim requires it to run. -/
theorem sub_only_rebuild_skips_link :
    (CBuild.Build "g++ -c " "tmp" "default" [1]
        [("a.c", ⟨"src/a.c", "a", 1000, false⟩)]
        (fun _ => DiffSlot.num 1000)).bReLink = true ∧
    (CBuild.Build "g++ -c " "tmp" "default" [1]
        [("a.c", ⟨"src/a.c", "a", 1000, false⟩)]
        (fun _ => DiffSlot.num 1000)).nToExecute = 0 ∧
    CBuild.PostBuildLinkRuns
        (CBuild.Build "g++ -c " "tmp" "default" [1]
          [("a.c", ⟨"src/a.c", "a", 1000, false⟩)]
          (fun _ => DiffSlot.num 1000)) = false := by
  refine ⟨rfl, rfl, rfl⟩

end DeltaMake
